import Mathlib

/-!
Verification development for `differ.py` of datacoves/dbt-manifest-differ:
a streamlit app that compares two dbt manifests (production vs branch),
classifies changed nodes by dbt state-selector category, and renders a
per-node structural diff.

Python dicts are modelled as association lists (`List (String × β)`) with
first-match lookup; external collaborators (jsondiff, dbt-core state
selection, seed tidying, flattening) are universally quantified parameters
or, where a claim depends on their behaviour, functions modelled from the
spec and marked as such.
-/

namespace ManifestDiffer

/-- Lookup in an association list: model of Python dict subscript / `.get`. -/
def alookup {β : Type} (d : List (String × β)) (k : String) : Option β :=
  match d with
  | [] => none
  | (k0, v) :: rest => if k0 = k then some v else alookup rest k

/-- Python `k in d` for a dict. -/
def hasKey {β : Type} (d : List (String × β)) (k : String) : Bool :=
  (alookup d k).isSome

/-- Python `d.get(k, default)`. -/
def pyGet {β : Type} (d : List (String × β)) (k : String) (default : β) : β :=
  (alookup d k).getD default

/-- Union of both node dicts' key sets: `all_keys` at src/differ.py line 115. -/
def all_keys {β : Type} (left_dict right_dict : List (String × β)) : List String :=
  (left_dict.map Prod.fst ++ right_dict.map Prod.fst).dedup

/-- Filter condition of the dict comprehension at src/differ.py lines 124-128:
`k not in properties_to_ignore and (k not in right_dict or k not in left_dict
or left_dict[k] != right_dict[k])`. -/
def diffCond {V : Type} [DecidableEq V] (left_dict right_dict : List (String × V))
    (properties_to_ignore : List String) (k : String) : Bool :=
  !(decide (k ∈ properties_to_ignore)) &&
    (!(hasKey right_dict k) || !(hasKey left_dict k) ||
      !(decide (alookup left_dict k = alookup right_dict k)))

/-- Per-node diff mapping built at src/differ.py lines 116-129. `jd` stands for
the external `jsondiff.diff` and `vnull` for Python `None`, the default both
`.get` calls pass for an absent key. -/
def diffs {V D : Type} [DecidableEq V] (jd : V → V → D) (vnull : V)
    (left_dict right_dict : List (String × V)) (properties_to_ignore : List String) :
    List (String × D) :=
  (all_keys left_dict right_dict).filterMap fun k =>
    if diffCond left_dict right_dict properties_to_ignore k then
      some (k, jd (pyGet left_dict k vnull) (pyGet right_dict k vnull))
    else none

/-- The eight fixed state comparison categories (src/differ.py lines 33-42). -/
def state_options : List String :=
  ["modified", "new", "modified.body", "modified.configs",
    "modified.persisted_descriptions", "modified.relation", "modified.macros",
    "modified.contract"]

/-- Python `state_inclusion_reasons_by_node[node].append(state_option)` with
creation of the entry when absent (src/differ.py lines 92-95). -/
def addReason : List (String × List String) → String → String →
    List (String × List String)
  | [], node, opt => [(node, [opt])]
  | (k, v) :: rest, node, opt =>
    if k = node then (k, v ++ [opt]) :: rest
    else (k, v) :: addReason rest node opt

/-- Python `state_inclusion_counts[state_option] = len(results)`
(src/differ.py line 96): dict assignment, replacing or appending. -/
def setCount : List (String × Nat) → String → Nat → List (String × Nat)
  | [], opt, c => [(opt, c)]
  | (k, v) :: rest, opt, c =>
    if k = opt then (k, c) :: rest
    else (k, v) :: setCount rest opt c

/-- One iteration of the classification loop (src/differ.py lines 89-96):
`results = list(state_comparator.search(included_nodes, state_option))`, then
append the option to every matched node's reasons list and record the count. -/
def classifyStep (searchC : String → List String)
    (acc : List (String × Nat) × List (String × List String)) (opt : String) :
    List (String × Nat) × List (String × List String) :=
  let results := searchC opt
  (setCount acc.1 opt results.length,
    results.foldl (fun reasons node => addReason reasons node opt) acc.2)

/-- The whole classification loop over the category list, starting from the
empty `state_inclusion_counts` and `state_inclusion_reasons_by_node` dicts
(src/differ.py lines 87-96). The first component is the counts dict; the
second is the reasons-by-node dict. -/
def classify (searchC : String → List String) (options : List String) :
    List (String × Nat) × List (String × List String) :=
  options.foldl (classifyStep searchC) ([], [])

/-- Sum over all nodes of the lengths of their reason lists. -/
def totalReasons (reasons : List (String × List String)) : Nat :=
  (reasons.map (fun p => p.2.length)).sum

/-- Sum of all per-category counts. -/
def sumCounts (counts : List (String × Nat)) : Nat :=
  (counts.map Prod.snd).sum

/-- Witness search function for C2. -/
def searchW : String → List String :=
  fun o => if o = "new" then ["model.a", "model.b"] else ["model.a"]

/-- A node of a loaded manifest, as the display loop uses it: the flattened
dict view given by `to_dict()` and the macro dependency ids
(`depends_on.macros`). -/
structure Node (V : Type) where
  to_dict : List (String × V)
  depends_on_macros : List String

/-- A loaded `WritableManifest`: `nodes` maps unique id to node record. -/
structure Manifest (V : Type) where
  nodes : List (String × Node V)

/-- Modelled from the spec: `StateSelectorMethod.search` (dbt-core, not part of
this repository) evaluates a category-specific membership predicate over the
candidate id set and yields exactly the matching candidates. -/
def searchModel (pred : String → String → Bool) (candidates : List String)
    (opt : String) : List String :=
  candidates.filter (fun uid => pred opt uid)

/-- One output action sent to the streamlit display sink; one constructor per
call site in src/differ.py, with the computed data as payload (message
formatting is presentational). `loadFile` records a manifest file being
opened and parsed (lines 65-66). -/
inductive Event (V D : Type) where
  | title
  | info
  | warnFilesNotFound (missing : List String)
  | warnEnvNotSet
  | loadFile (file_name : String)
  | warnLargeSeeds (ids : List String)
  | barChart (counts : List (String × Nat))
  | headerModifiedMacros
  | writeModifiedMacros (ids : List String)
  | headerSelected (n : Nat)
  | subheader (uid : String)
  | writeSelectorsLabel
  | codeReasons (reasons : List String)
  | writeDependsOnMacros (ids : List String)
  | writeDiffsLabel
  | jsonDiffs (d : List (String × D))
  | writeRightLabel
  | jsonRight (d : List (String × V))
  | writeFlatLabel
  | dataframe (rows : List (String × D))
  | errorTable (msg : String)
  | warnDeletedNode
  | warnNewNode
  | writeStateMethodsLabel
  | divider
  | warnManifestsNeeded

/-- Result of running (part of) the script: the ordered display actions
emitted, and `some msg` when an unhandled Python exception aborted the rest
of the run. -/
structure Run (V D : Type) where
  events : List (Event V D)
  error : Option String

/-- The inputs read by the per-node display loop (src/differ.py lines
106-162). -/
structure DisplayCtx (V D : Type) where
  jd : V → V → D
  vnull : V
  properties_to_ignore : List String
  flatten_keys : List (String × D) → Except String (List (String × D))
  reasons : List (String × List String)
  modified_macros : List String
  branch : Manifest V
  production : Manifest V

/-- One iteration of the display loop (src/differ.py lines 106-162) for node
`uid`. A `state_inclusion_reasons_by_node[unique_id]` lookup with a missing
key raises KeyError, ending the run; the try/except at lines 146-151 confines
a flattening failure to an error box for this node only. -/
def renderNode {V D : Type} [DecidableEq V] (ctx : DisplayCtx V D) (uid : String) :
    Run V D :=
  match alookup ctx.branch.nodes uid, alookup ctx.production.nodes uid with
  | some left_node, some right_node =>
    let ds := diffs ctx.jd ctx.vnull left_node.to_dict right_node.to_dict
      ctx.properties_to_ignore
    (match alookup ctx.reasons uid with
    | none =>
      { events := [Event.subheader uid, Event.writeSelectorsLabel],
        error := some ("KeyError: " ++ uid) }
    | some rs =>
      { events := [Event.subheader uid, Event.writeSelectorsLabel,
          Event.codeReasons rs] ++
          (if left_node.depends_on_macros ≠ [] ∧ ctx.modified_macros ≠ [] then
            [Event.writeDependsOnMacros left_node.depends_on_macros]
          else []) ++
          [Event.writeDiffsLabel, Event.jsonDiffs ds, Event.writeRightLabel,
            Event.jsonRight right_node.to_dict, Event.writeFlatLabel] ++
          (match ctx.flatten_keys ds with
          | Except.ok rows => [Event.dataframe rows]
          | Except.error e => [Event.errorTable e]) ++
          [Event.divider],
        error := none })
  | none, _ =>
    { events := [Event.subheader uid, Event.warnDeletedNode, Event.divider],
      error := none }
  | some _, none =>
    match alookup ctx.reasons uid with
    | none =>
      { events := [Event.subheader uid, Event.warnNewNode,
          Event.writeStateMethodsLabel],
        error := some ("KeyError: " ++ uid) }
    | some rs =>
      { events := [Event.subheader uid, Event.warnNewNode,
          Event.writeStateMethodsLabel, Event.codeReasons rs, Event.divider],
        error := none }

/-- The display loop over the selected nodes (src/differ.py line 106): an
unhandled exception in one iteration aborts the remaining iterations. -/
def renderLoop {V D : Type} [DecidableEq V] (ctx : DisplayCtx V D) :
    List String → Run V D
  | [] => { events := [], error := none }
  | uid :: rest =>
    let r := renderNode ctx uid
    match r.error with
    | some e => { events := r.events, error := some e }
    | none =>
      let r2 := renderLoop ctx rest
      { events := r.events ++ r2.events, error := r2.error }

/-- The comparison pipeline (src/differ.py lines 78-162), entered when both
manifest files were found. The candidate set is the BRANCH manifest's node
keys alone (line 80); the large-seeds warning is emitted exactly when the
skipped set is non-empty (lines 84-85); classification runs over all eight
categories (lines 87-96); the display loop runs over the nodes selected by
the chosen state method (lines 99-162). -/
def runPipeline {V D : Type} [DecidableEq V]
    (searchC : List String → String → List String) (state_method : String)
    (properties_to_ignore : List String) (jd : V → V → D) (vnull : V)
    (flatten_keys : List (String × D) → Except String (List (String × D)))
    (modified_macros : List String) (branch production : Manifest V)
    (skipped_large_seeds : List String) : Run V D :=
  let included_nodes := branch.nodes.map Prod.fst
  let seedEvents := if skipped_large_seeds.length > 0 then
      [Event.warnLargeSeeds skipped_large_seeds]
    else []
  let cls := classify (searchC included_nodes) state_options
  let selected_nodes := searchC included_nodes state_method
  let macroEvents := if modified_macros ≠ [] then
      [Event.headerModifiedMacros, Event.writeModifiedMacros modified_macros]
    else []
  let ctx : DisplayCtx V D :=
    { jd := jd, vnull := vnull, properties_to_ignore := properties_to_ignore,
      flatten_keys := flatten_keys, reasons := cls.2,
      modified_macros := modified_macros, branch := branch,
      production := production }
  let loop := renderLoop ctx selected_nodes
  { events := seedEvents ++ [Event.barChart cls.1] ++ macroEvents ++
      [Event.headerSelected selected_nodes.length] ++ loop.events,
    error := loop.error }

/-- `load_manifest` (src/differ.py lines 48-53): parse the document, elide
large seeds FIRST, record the elided node ids, then hand the pruned document
to schema normalization. `readDoc` stands for `json.load` over the named
file, `remove_large_seeds` for the external `functions.tidy.remove_large_seeds`,
and `upgrade` for `WritableManifest.upgrade_schema_version`. -/
def load_manifest {V Doc : Type} (readDoc : String → Doc)
    (remove_large_seeds : Doc → Doc × List String) (upgrade : Doc → Manifest V)
    (file_name : String) : Manifest V × List String :=
  let data := readDoc file_name
  let pruned := remove_large_seeds data
  (upgrade pruned.1, pruned.2)

/-- The whole script run (src/differ.py lines 19-165). Widget values
(`state_method`, `properties_to_ignore`) and external collaborators are
parameters. When DATACOVES__DBT_HOME is unset (env = none), line 76 warns and
line 78 then reads `not_found_files`, a name assigned only inside the
`if dbt_project_path:` branch (line 62), so the run fails with NameError. -/
def runScript {V D Doc : Type} [DecidableEq V] (env : Option String)
    (fileExists : String → Bool) (readDoc : String → Doc)
    (remove_large_seeds : Doc → Doc × List String) (upgrade : Doc → Manifest V)
    (searchC : List String → String → List String) (state_method : String)
    (properties_to_ignore : List String) (jd : V → V → D) (vnull : V)
    (flatten_keys : List (String × D) → Except String (List (String × D)))
    (modified_macros : List String) : Run V D :=
  let introEvents : List (Event V D) := [Event.title, Event.info]
  match env with
  | none =>
    { events := introEvents ++ [Event.warnEnvNotSet],
      error := some "NameError: name not_found_files is not defined" }
  | some dbt_project_path =>
    let production_manifest_location := dbt_project_path ++ "/logs/manifest.json"
    let branch_manifest_location := dbt_project_path ++ "/target/manifest.json"
    if fileExists production_manifest_location &&
        fileExists branch_manifest_location then
      let pm := load_manifest readDoc remove_large_seeds upgrade
        production_manifest_location
      let bm := load_manifest readDoc remove_large_seeds upgrade
        branch_manifest_location
      let skipped := (pm.2 ++ bm.2).dedup
      let pipe := runPipeline searchC state_method properties_to_ignore jd vnull
        flatten_keys modified_macros bm.1 pm.1 skipped
      { events := introEvents ++ [Event.loadFile production_manifest_location,
          Event.loadFile branch_manifest_location] ++ pipe.events,
        error := pipe.error }
    else
      let not_found_files :=
        (if fileExists production_manifest_location then []
          else ["Production manifest file"]) ++
        (if fileExists branch_manifest_location then []
          else ["Branch manifest file"])
      { events := introEvents ++ [Event.warnFilesNotFound not_found_files,
          Event.warnManifestsNeeded],
        error := none }

/-- Recognizer for the aggregated large-seeds warning event. -/
def isLargeSeedsWarning {V D : Type} : Event V D → Bool
  | Event.warnLargeSeeds _ => true
  | _ => false

/-- The options offered by the ignored-properties multiselect
(src/differ.py line 45). -/
def properties_to_ignore_options : List String :=
  ["created_at", "root_path", "build_path", "compiled_path", "deferred",
    "schema", "checksum", "compiled_code", "database", "relation_name"]

/-- The default ignored-properties selection (src/differ.py line 45). -/
def properties_to_ignore_default : List String :=
  ["created_at", "checksum", "database", "schema", "relation_name",
    "compiled_path", "root_path", "build_path"]

/-- Modelled from the spec: the five documented groups of churn-prone fields
(timestamps, checksums, paths, compiled artifacts, connection identifiers),
each with the manifest field names of that kind among the multiselect
options. `compiled_path` names the filesystem location of a node's compiled
artifact, so it belongs to both the paths group and the compiled-artifacts
group. -/
def documentedFieldGroups : List (String × List String) :=
  [("timestamps", ["created_at"]),
    ("checksums", ["checksum"]),
    ("paths", ["root_path", "build_path", "compiled_path"]),
    ("compiled artifacts", ["compiled_code", "compiled_path"]),
    ("connection identifiers", ["database", "schema", "relation_name"])]

/-- Concrete display context for the C6 witness: the flattener always fails. -/
def ctxW : DisplayCtx Nat (Nat × Nat) :=
  { jd := fun a b => (a, b), vnull := 0, properties_to_ignore := [],
    flatten_keys := fun _ => Except.error "boom",
    reasons := [("model.a", ["modified"])], modified_macros := [],
    branch := ⟨[("model.a", ⟨[("body", 1)], []⟩)]⟩,
    production := ⟨[("model.a", ⟨[("body", 2)], []⟩)]⟩ }

/-- Fixture node records for the classification counterexample. -/
def nodeBody1 : Node Nat := ⟨[("body", 1)], []⟩

/-- Second fixture node record. -/
def nodeBody2 : Node Nat := ⟨[("body", 2)], []⟩

/-- Fixture branch manifest: holds only `model.a`. -/
def branchEx : Manifest Nat := ⟨[("model.a", nodeBody1)]⟩

/-- Fixture branch manifest with one branch-only node `model.x`. -/
def branchEx2 : Manifest Nat := ⟨[("model.a", nodeBody1), ("model.x", nodeBody2)]⟩

/-- Fixture reference manifest: holds `model.a` and the reference-only
`model.b`. -/
def referenceEx : Manifest Nat :=
  ⟨[("model.a", nodeBody1), ("model.b", nodeBody2)]⟩

/-- Modelled from the spec: a concrete category predicate set over the fixture
reference manifest — `new` matches ids absent from the reference manifest,
the other categories match nothing. -/
def predEx : String → String → Bool :=
  fun opt uid => opt == "new" && !(alookup referenceEx.nodes uid).isSome

theorem alookup_isSome_iff_mem {β : Type} (d : List (String × β)) (k : String) :
    (alookup d k).isSome = true ↔ k ∈ d.map Prod.fst := by
  induction d with
  | nil => simp [alookup]
  | cons p rest ih =>
    obtain ⟨k0, v⟩ := p
    by_cases h : k0 = k
    · subst h
      simp [alookup]
    · simp only [alookup, if_neg h, List.map_cons, List.mem_cons, ih]
      constructor
      · exact fun hm => Or.inr hm
      · rintro (rfl | hm)
        · exact absurd rfl h
        · exact hm

theorem alookup_eq_none_iff_not_mem {β : Type} (d : List (String × β)) (k : String) :
    alookup d k = none ↔ k ∉ d.map Prod.fst := by
  rw [← alookup_isSome_iff_mem]
  cases alookup d k <;> simp

theorem mem_map_fst_filterMap_if {α : Type} (xs : List String) (p : String → Bool)
    (f : String → α) (k : String) :
    (k ∈ (xs.filterMap fun x => if p x then some (x, f x) else none).map Prod.fst) ↔
      (k ∈ xs ∧ p k = true) := by
  induction xs with
  | nil => simp
  | cons x rest ih =>
    by_cases hx : p x = true
    · simp only [List.filterMap_cons, hx, if_true, List.map_cons, List.mem_cons, ih]
      constructor
      · rintro (rfl | ⟨hm, hp⟩)
        · exact ⟨Or.inl rfl, hx⟩
        · exact ⟨Or.inr hm, hp⟩
      · rintro ⟨rfl | hm, hp⟩
        · exact Or.inl rfl
        · exact Or.inr ⟨hm, hp⟩
    · have hx2 : p x = false := by simpa using hx
      simp only [List.filterMap_cons, hx2, Bool.false_eq_true, if_false, ih, List.mem_cons]
      constructor
      · rintro ⟨hm, hp⟩
        exact ⟨Or.inr hm, hp⟩
      · rintro ⟨rfl | hm, hp⟩
        · exact absurd hp hx
        · exact ⟨hm, hp⟩

theorem alookup_filterMap_if {α : Type} (xs : List String) (p : String → Bool)
    (f : String → α) (k : String) (hk : k ∈ xs) (hp : p k = true) :
    alookup (xs.filterMap fun x => if p x then some (x, f x) else none) k =
      some (f k) := by
  induction xs with
  | nil => cases hk
  | cons x rest ih =>
    by_cases hxk : x = k
    · subst hxk
      simp only [List.filterMap_cons, hp, if_true, alookup, if_pos rfl]
    · have hk2 : k ∈ rest := by
        cases List.mem_cons.mp hk with
        | inl h => exact absurd h.symm hxk
        | inr h => exact h
      by_cases hx : p x = true
      · simp only [List.filterMap_cons, hx, if_true, alookup, if_neg hxk]
        exact ih hk2
      · have hx2 : p x = false := by simpa using hx
        simp only [List.filterMap_cons, hx2, Bool.false_eq_true, if_false]
        exact ih hk2

theorem mem_all_keys_iff {β : Type} (l r : List (String × β)) (k : String) :
    k ∈ all_keys l r ↔ (k ∈ l.map Prod.fst ∨ k ∈ r.map Prod.fst) := by
  simp [all_keys, List.mem_dedup, List.mem_append]

theorem diffCond_iff {V : Type} [DecidableEq V] (l r : List (String × V))
    (ignore : List String) (k : String) :
    diffCond l r ignore k = true ↔
      (k ∉ ignore ∧ (alookup r k = none ∨ alookup l k = none ∨
        ∃ a b, alookup l k = some a ∧ alookup r k = some b ∧ a ≠ b)) := by
  unfold diffCond hasKey
  cases hl : alookup l k with
  | none =>
    cases hr : alookup r k <;> simp [hl, hr]
  | some a =>
    cases hr : alookup r k with
    | none => simp [hl, hr]
    | some b =>
      simp only [hl, hr, Option.isSome_some, Bool.not_true, Bool.false_or, Bool.or_false,
        Bool.and_eq_true, Bool.not_eq_true', decide_eq_false_iff_not, Option.some.injEq]
      constructor
      · rintro ⟨hig, hne⟩
        exact ⟨hig, Or.inr (Or.inr ⟨a, b, rfl, rfl, hne⟩)⟩
      · rintro ⟨hig, (h | h | ⟨a2, b2, ha2, hb2, hab⟩)⟩
        · exact absurd h (by simp)
        · exact absurd h (by simp)
        · refine ⟨hig, ?_⟩
          rw [ha2, hb2]
          exact hab

/-- C1: for every pair of node records present in both manifests and every
ignored-properties set, the per-node diff mapping contains a field key iff the
key is in the union of both records' keys, is not ignored, and is either
missing from one side or has unequal values; consequently, for nodes identical
on all non-ignored fields the diff mapping is empty. -/
theorem diffs_key_membership {V D : Type} [DecidableEq V] (jd : V → V → D) (vnull : V)
    (l r : List (String × V)) (ignore : List String) (k : String) :
    ((k ∈ (diffs jd vnull l r ignore).map Prod.fst ↔
      ((k ∈ l.map Prod.fst ∨ k ∈ r.map Prod.fst) ∧ k ∉ ignore ∧
        (alookup r k = none ∨ alookup l k = none ∨
          ∃ a b, alookup l k = some a ∧ alookup r k = some b ∧ a ≠ b)))) ∧
    ((∀ k2, k2 ∉ ignore → alookup l k2 = alookup r k2) →
      diffs jd vnull l r ignore = []) := by
  constructor
  · rw [diffs, mem_map_fst_filterMap_if, mem_all_keys_iff, diffCond_iff]
  · intro hsame
    rw [diffs, List.filterMap_eq_nil_iff]
    intro k2 hk2
    by_cases hc : diffCond l r ignore k2 = true
    · exfalso
      rw [diffCond_iff] at hc
      obtain ⟨hig, hdis⟩ := hc
      have heq := hsame k2 hig
      have hmem := (mem_all_keys_iff l r k2).mp hk2
      have hnone : alookup l k2 = none → False := by
        intro hln
        have hrn : alookup r k2 = none := by rw [← heq]; exact hln
        rcases hmem with hm | hm
        · exact (alookup_eq_none_iff_not_mem l k2).mp hln hm
        · exact (alookup_eq_none_iff_not_mem r k2).mp hrn hm
      rcases hdis with h | h | ⟨a, b, ha, hb, hab⟩
      · exact hnone (by rw [heq]; exact h)
      · exact hnone h
      · rw [ha, hb] at heq
        exact hab (by injection heq)
    · simp [hc]

/-- Witness for C1 at a concrete input: key `a` has unequal values on the two
sides, so it is reported in the diff mapping. -/
theorem diffs_key_membership_witness :
    "a" ∈ (diffs (fun a b => (a, b)) 0 [("a", 1)] [("a", 2)] []).map Prod.fst :=
  (diffs_key_membership (fun a b => (a, b)) 0 [("a", 1)] [("a", 2)] [] "a").1.mpr
    ⟨Or.inl (by decide), by decide, Or.inr (Or.inr ⟨1, 2, rfl, rfl, by decide⟩)⟩

/-- C10 (amended): a non-ignored field key present in exactly one of the two
node records is always included in the per-node diff mapping, its entry
computed by diffing the present value against the `None` default of `.get`. -/
theorem diffs_one_sided_key_included {V D : Type} [DecidableEq V] (jd : V → V → D)
    (vnull : V) (l r : List (String × V)) (ignore : List String) (k : String)
    (hone : hasKey l k ≠ hasKey r k) (hig : k ∉ ignore) :
    alookup (diffs jd vnull l r ignore) k =
      some (jd (pyGet l k vnull) (pyGet r k vnull)) ∧
    (alookup l k = none ∨ alookup r k = none) := by
  have hcond : diffCond l r ignore k = true := by
    rw [diffCond_iff]
    refine ⟨hig, ?_⟩
    cases hl : alookup l k with
    | none => exact Or.inr (Or.inl rfl)
    | some a =>
      cases hr : alookup r k with
      | none => exact Or.inl rfl
      | some b =>
        exfalso
        apply hone
        rw [hasKey, hasKey, hl, hr]
        rfl
  have hmem : k ∈ all_keys l r := by
    rw [mem_all_keys_iff]
    cases hl : alookup l k with
    | none =>
      cases hr : alookup r k with
      | none =>
        exfalso
        apply hone
        rw [hasKey, hasKey, hl, hr]
      | some b => exact Or.inr ((alookup_isSome_iff_mem r k).mp (by rw [hr]; rfl))
    | some a => exact Or.inl ((alookup_isSome_iff_mem l k).mp (by rw [hl]; rfl))
  constructor
  · rw [diffs]
    exact alookup_filterMap_if (all_keys l r) (diffCond l r ignore)
      (fun k => jd (pyGet l k vnull) (pyGet r k vnull)) k hmem hcond
  · cases hl : alookup l k with
    | none => exact Or.inl rfl
    | some a =>
      cases hr : alookup r k with
      | none => exact Or.inr rfl
      | some b =>
        exfalso
        apply hone
        rw [hasKey, hasKey, hl, hr]
        rfl

/-- C10 counterexample: the key `checksum` is present in exactly one of the two
records, but because it is in the ignored-properties set it does NOT appear in
the per-node diff mapping, refuting the unconditional claim. -/
theorem diffs_one_sided_ignored_key_excluded :
    hasKey [("checksum", (1 : Nat))] "checksum" = true ∧
    hasKey ([] : List (String × Nat)) "checksum" = false ∧
    "checksum" ∉ (diffs (fun a b => (a, b)) 0 [("checksum", (1 : Nat))]
      ([] : List (String × Nat)) ["checksum"]).map Prod.fst := by
  decide

/-- Witness for the amended C10 at the spotlighted edge case: a key whose value
is `None` on the left and which is absent on the right still appears in the
diff mapping, with both sides of its entry being `None`. -/
theorem diffs_one_sided_key_included_witness :
    alookup (diffs (fun a b => (a, b)) (none : Option Nat)
      [("k", (none : Option Nat))] ([] : List (String × Option Nat)) []) "k" =
      some ((none : Option Nat), (none : Option Nat)) := by
  have h := diffs_one_sided_key_included (fun a b => (a, b)) (none : Option Nat)
    [("k", (none : Option Nat))] ([] : List (String × Option Nat)) [] "k"
    (by decide) (by decide)
  exact h.1

theorem totalReasons_addReason (r : List (String × List String)) (node opt : String) :
    totalReasons (addReason r node opt) = totalReasons r + 1 := by
  induction r with
  | nil => simp [addReason, totalReasons]
  | cons p rest ih =>
    obtain ⟨k, v⟩ := p
    by_cases h : k = node
    · simp only [addReason, if_pos h, totalReasons, List.map_cons, List.sum_cons,
        List.length_append, List.length_cons, List.length_nil]
      omega
    · simp only [addReason, if_neg h, totalReasons, List.map_cons, List.sum_cons]
      simp only [totalReasons] at ih
      omega

theorem totalReasons_foldl_addReason (results : List String) :
    ∀ (r0 : List (String × List String)) (opt : String),
    totalReasons (results.foldl (fun reasons node => addReason reasons node opt) r0) =
      totalReasons r0 + results.length := by
  induction results with
  | nil => intro r0 opt; simp
  | cons x rest ih =>
    intro r0 opt
    simp only [List.foldl_cons, List.length_cons]
    rw [ih, totalReasons_addReason]
    omega

theorem alookup_setCount_self (c : List (String × Nat)) (opt : String) (n : Nat) :
    alookup (setCount c opt n) opt = some n := by
  induction c with
  | nil => simp [setCount, alookup]
  | cons p rest ih =>
    obtain ⟨k, v⟩ := p
    by_cases h : k = opt
    · simp [setCount, h, alookup]
    · simp only [setCount, if_neg h, alookup, if_neg h]
      exact ih

theorem alookup_setCount_other (c : List (String × Nat)) (opt k2 : String) (n : Nat)
    (h : opt ≠ k2) : alookup (setCount c opt n) k2 = alookup c k2 := by
  induction c with
  | nil => simp [setCount, alookup, if_neg h]
  | cons p rest ih =>
    obtain ⟨k, v⟩ := p
    by_cases hk : k = opt
    · subst hk
      simp [setCount, alookup, if_neg h]
    · simp only [setCount, if_neg hk, alookup]
      by_cases hk2 : k = k2
      · simp [hk2]
      · simp only [if_neg hk2]
        exact ih

theorem sumCounts_setCount_fresh (c : List (String × Nat)) (opt : String) (n : Nat)
    (h : alookup c opt = none) : sumCounts (setCount c opt n) = sumCounts c + n := by
  induction c with
  | nil => simp [setCount, sumCounts]
  | cons p rest ih =>
    obtain ⟨k, v⟩ := p
    by_cases hk : k = opt
    · rw [alookup, if_pos hk] at h
      cases h
    · rw [alookup, if_neg hk] at h
      simp only [setCount, if_neg hk, sumCounts, List.map_cons, List.sum_cons]
      simp only [sumCounts] at ih
      have h2 := ih h
      omega

theorem alookup_fst_classifyStep_other (searchC : String → List String)
    (acc : List (String × Nat) × List (String × List String)) (opt k2 : String)
    (h : opt ≠ k2) :
    alookup (classifyStep searchC acc opt).1 k2 = alookup acc.1 k2 :=
  alookup_setCount_other acc.1 opt k2 _ h

theorem alookup_fst_foldl_classifyStep (searchC : String → List String) :
    ∀ (options : List String) (acc : List (String × Nat) × List (String × List String))
      (k2 : String) (v : Nat), k2 ∉ options → alookup acc.1 k2 = some v →
    alookup (options.foldl (classifyStep searchC) acc).1 k2 = some v := by
  intro options
  induction options with
  | nil => intro acc k2 v _ hv; exact hv
  | cons opt rest ih =>
    intro acc k2 v hnm hv
    have h1 : opt ≠ k2 := fun h => hnm (h ▸ List.mem_cons_self opt rest)
    have h2 : k2 ∉ rest := fun h => hnm (List.mem_cons_of_mem opt h)
    simp only [List.foldl_cons]
    apply ih _ k2 v h2
    rw [alookup_fst_classifyStep_other searchC acc opt k2 h1]
    exact hv

theorem classify_foldl_invariant (searchC : String → List String) :
    ∀ (options : List String) (acc : List (String × Nat) × List (String × List String)),
      options.Nodup → (∀ o ∈ options, alookup acc.1 o = none) →
    (sumCounts (options.foldl (classifyStep searchC) acc).1 =
        sumCounts acc.1 + (options.map (fun o => (searchC o).length)).sum) ∧
    (totalReasons (options.foldl (classifyStep searchC) acc).2 =
        totalReasons acc.2 + (options.map (fun o => (searchC o).length)).sum) ∧
    (∀ o ∈ options,
        alookup (options.foldl (classifyStep searchC) acc).1 o = some (searchC o).length) := by
  intro options
  induction options with
  | nil =>
    intro acc _ _
    refine ⟨by simp, by simp, ?_⟩
    intro o ho
    cases ho
  | cons opt rest ih =>
    intro acc hnd hfresh
    have hndr : rest.Nodup := (List.nodup_cons.mp hnd).2
    have hopt : opt ∉ rest := (List.nodup_cons.mp hnd).1
    have hfro : alookup acc.1 opt = none := hfresh opt (List.mem_cons_self opt rest)
    have hfresh2 : ∀ o ∈ rest, alookup (classifyStep searchC acc opt).1 o = none := by
      intro o ho
      have hne : opt ≠ o := fun h => hopt (h ▸ ho)
      rw [alookup_fst_classifyStep_other searchC acc opt o hne]
      exact hfresh o (List.mem_cons_of_mem opt ho)
    obtain ⟨ihc, ihr, ihl⟩ := ih (classifyStep searchC acc opt) hndr hfresh2
    refine ⟨?_, ?_, ?_⟩
    · simp only [List.foldl_cons, List.map_cons, List.sum_cons]
      rw [ihc]
      have : sumCounts (classifyStep searchC acc opt).1 = sumCounts acc.1 + (searchC opt).length := by
        rw [classifyStep]
        exact sumCounts_setCount_fresh acc.1 opt _ hfro
      rw [this]
      omega
    · simp only [List.foldl_cons, List.map_cons, List.sum_cons]
      rw [ihr]
      have : totalReasons (classifyStep searchC acc opt).2 = totalReasons acc.2 + (searchC opt).length := by
        rw [classifyStep]
        exact totalReasons_foldl_addReason (searchC opt) acc.2 opt
      rw [this]
      omega
    · intro o ho
      rcases List.mem_cons.mp ho with rfl | hor
      · simp only [List.foldl_cons]
        apply alookup_fst_foldl_classifyStep searchC rest (classifyStep searchC acc o) o _ hopt
        rw [classifyStep]
        exact alookup_setCount_self acc.1 o _
      · simp only [List.foldl_cons]
        exact ihl o hor

/-- C2: after the classification loop over the eight categories, each
category's recorded count equals the number of matched nodes appended for it
in its iteration, and the total number of reasons recorded across all nodes
equals the sum of all per-category counts. -/
theorem classification_counts_and_sum (searchC : String → List String) (opt : String)
    (h : opt ∈ state_options) :
    alookup (classify searchC state_options).1 opt = some (searchC opt).length ∧
    totalReasons (classify searchC state_options).2 =
      sumCounts (classify searchC state_options).1 := by
  have hnd : state_options.Nodup := by decide
  have hfresh : ∀ o ∈ state_options, alookup (([], []) :
      List (String × Nat) × List (String × List String)).1 o = none := by
    intro o _
    rfl
  obtain ⟨hc, hr, hl⟩ := classify_foldl_invariant searchC state_options ([], []) hnd hfresh
  refine ⟨hl opt h, ?_⟩
  rw [classify, hr, hc]
  rfl

/-- Witness for C2 at a concrete search function and the category `new`. -/
theorem classification_counts_and_sum_witness :
    alookup (classify searchW state_options).1 "new" = some (searchW "new").length ∧
    totalReasons (classify searchW state_options).2 =
      sumCounts (classify searchW state_options).1 :=
  classification_counts_and_sum searchW "new" (by decide)

theorem mem_alookup_addReason_self :
    ∀ (r : List (String × List String)) (node opt : String),
    opt ∈ ((alookup (addReason r node opt) node).getD []) := by
  intro r
  induction r with
  | nil => intro node opt; simp [addReason, alookup]
  | cons p rest ih =>
    intro node opt
    obtain ⟨k, v⟩ := p
    by_cases h : k = node
    · simp [addReason, if_pos h, alookup, h]
    · simp only [addReason, if_neg h, alookup, if_neg h]
      exact ih node opt

theorem mem_alookup_addReason_mono :
    ∀ (r : List (String × List String)) (node opt node2 opt2 : String),
    opt ∈ ((alookup r node).getD []) →
    opt ∈ ((alookup (addReason r node2 opt2) node).getD []) := by
  intro r
  induction r with
  | nil =>
    intro node opt node2 opt2 h
    simp [alookup] at h
  | cons p rest ih =>
    intro node opt node2 opt2 h
    obtain ⟨k, v⟩ := p
    by_cases h2 : k = node2
    · by_cases h3 : k = node
      · subst h3
        rw [alookup, if_pos rfl] at h
        simp only [addReason, if_pos h2, alookup, if_pos rfl, Option.getD_some]
        simp only [Option.getD_some] at h
        exact List.mem_append_left _ h
      · rw [alookup, if_neg h3] at h
        simp only [addReason, if_pos h2, alookup, if_neg h3]
        exact h
    · by_cases h3 : k = node
      · rw [alookup, if_pos h3] at h
        simp only [addReason, if_neg h2, alookup, if_pos h3]
        exact h
      · rw [alookup, if_neg h3] at h
        simp only [addReason, if_neg h2, alookup, if_neg h3]
        exact ih node opt node2 opt2 h

theorem mem_alookup_foldl_addReason_mono (results : List String) :
    ∀ (r0 : List (String × List String)) (node opt opt2 : String),
    opt ∈ ((alookup r0 node).getD []) →
    opt ∈ ((alookup (results.foldl (fun reasons n => addReason reasons n opt2) r0)
      node).getD []) := by
  induction results with
  | nil => intro r0 node opt opt2 h; exact h
  | cons x rest ih =>
    intro r0 node opt opt2 h
    simp only [List.foldl_cons]
    exact ih _ node opt opt2 (mem_alookup_addReason_mono r0 node opt x opt2 h)

theorem mem_alookup_foldl_addReason (results : List String) :
    ∀ (r0 : List (String × List String)) (node opt : String), node ∈ results →
    opt ∈ ((alookup (results.foldl (fun reasons n => addReason reasons n opt) r0)
      node).getD []) := by
  induction results with
  | nil =>
    intro r0 node opt h
    cases h
  | cons x rest ih =>
    intro r0 node opt h
    simp only [List.foldl_cons]
    by_cases hx : x = node
    · subst hx
      exact mem_alookup_foldl_addReason_mono rest _ x opt opt
        (mem_alookup_addReason_self r0 x opt)
    · have hm : node ∈ rest := by
        rcases List.mem_cons.mp h with rfl | hm
        · exact absurd rfl hx
        · exact hm
      exact ih _ node opt hm

theorem mem_alookup_foldl_classifyStep_mono (searchC : String → List String) :
    ∀ (options : List String)
      (acc : List (String × Nat) × List (String × List String)) (node o : String),
    o ∈ ((alookup acc.2 node).getD []) →
    o ∈ ((alookup ((options.foldl (classifyStep searchC) acc)).2 node).getD []) := by
  intro options
  induction options with
  | nil => intro acc node o h; exact h
  | cons x rest ih =>
    intro acc node o h
    simp only [List.foldl_cons]
    apply ih (classifyStep searchC acc x) node o
    simp only [classifyStep]
    exact mem_alookup_foldl_addReason_mono (searchC x) acc.2 node o x h

theorem classify_mem_of_search (searchC : String → List String) :
    ∀ (options : List String)
      (acc : List (String × Nat) × List (String × List String)) (opt : String),
    opt ∈ options → ∀ node ∈ searchC opt,
    opt ∈ ((alookup ((options.foldl (classifyStep searchC) acc)).2 node).getD []) := by
  intro options
  induction options with
  | nil =>
    intro acc opt h
    cases h
  | cons x rest ih =>
    intro acc opt hm node hn
    simp only [List.foldl_cons]
    rcases List.mem_cons.mp hm with rfl | hr
    · apply mem_alookup_foldl_classifyStep_mono searchC rest (classifyStep searchC acc opt)
      simp only [classifyStep]
      exact mem_alookup_foldl_addReason (searchC opt) acc.2 node opt hn
    · exact ih _ opt hr node hn

theorem alookup_isSome_of_mem_getD (r : List (String × List String)) (node o : String)
    (h : o ∈ ((alookup r node).getD [])) : (alookup r node).isSome = true := by
  cases hl : alookup r node with
  | none =>
    rw [hl] at h
    simp at h
  | some v => rfl

theorem addReason_key_mem :
    ∀ (r : List (String × List String)) (node opt key : String),
    key ∈ (addReason r node opt).map Prod.fst → key = node ∨ key ∈ r.map Prod.fst := by
  intro r
  induction r with
  | nil =>
    intro node opt key h
    simp [addReason] at h
    exact Or.inl h
  | cons p rest ih =>
    intro node opt key h
    obtain ⟨k, v⟩ := p
    by_cases h2 : k = node
    · simp only [addReason, if_pos h2, List.map_cons, List.mem_cons] at h
      rcases h with rfl | hm
      · exact Or.inr (List.mem_cons_self _ _)
      · exact Or.inr (List.mem_cons_of_mem _ hm)
    · simp only [addReason, if_neg h2, List.map_cons, List.mem_cons] at h
      rcases h with rfl | hm
      · exact Or.inr (List.mem_cons_self _ _)
      · rcases ih node opt key hm with h3 | h3
        · exact Or.inl h3
        · exact Or.inr (List.mem_cons_of_mem _ h3)

theorem foldl_addReason_key_mem (results : List String) :
    ∀ (r0 : List (String × List String)) (opt key : String),
    key ∈ ((results.foldl (fun r n => addReason r n opt) r0).map Prod.fst) →
    key ∈ results ∨ key ∈ r0.map Prod.fst := by
  induction results with
  | nil =>
    intro r0 opt key h
    exact Or.inr h
  | cons x rest ih =>
    intro r0 opt key h
    simp only [List.foldl_cons] at h
    rcases ih _ opt key h with hm | hm
    · exact Or.inl (List.mem_cons_of_mem x hm)
    · rcases addReason_key_mem r0 x opt key hm with rfl | hk
      · exact Or.inl (List.mem_cons_self _ _)
      · exact Or.inr hk

theorem classify_key_mem (searchC : String → List String) :
    ∀ (options : List String)
      (acc : List (String × Nat) × List (String × List String)) (key : String),
    key ∈ ((options.foldl (classifyStep searchC) acc)).2.map Prod.fst →
    (∃ opt ∈ options, key ∈ searchC opt) ∨ key ∈ acc.2.map Prod.fst := by
  intro options
  induction options with
  | nil =>
    intro acc key h
    exact Or.inr h
  | cons x rest ih =>
    intro acc key h
    simp only [List.foldl_cons] at h
    rcases ih _ key h with ⟨opt, ho, hk⟩ | hm
    · exact Or.inl ⟨opt, List.mem_cons_of_mem x ho, hk⟩
    · simp only [classifyStep] at hm
      rcases foldl_addReason_key_mem (searchC x) acc.2 x key hm with hin | hin
      · exact Or.inl ⟨x, List.mem_cons_self _ _, hin⟩
      · exact Or.inr hin

/-- C8: for every execution with DATACOVES__DBT_HOME unset, the script emits
the environment warning and then raises an unhandled NameError at the
`if not not_found_files:` guard (line 78), because `not_found_files` is
assigned only inside the branch taken when the variable is set; the run does
not merely end with the warning. -/
theorem env_unset_raises_name_error {V D Doc : Type} [DecidableEq V]
    (fileExists : String → Bool) (readDoc : String → Doc)
    (remove_large_seeds : Doc → Doc × List String) (upgrade : Doc → Manifest V)
    (searchC : List String → String → List String) (state_method : String)
    (properties_to_ignore : List String) (jd : V → V → D) (vnull : V)
    (flatten_keys : List (String × D) → Except String (List (String × D)))
    (modified_macros : List String) :
    runScript none fileExists readDoc remove_large_seeds upgrade searchC
        state_method properties_to_ignore jd vnull flatten_keys modified_macros =
      { events := [Event.title, Event.info, Event.warnEnvNotSet],
        error := some "NameError: name not_found_files is not defined" } ∧
    Event.warnEnvNotSet ∈ (runScript none fileExists readDoc remove_large_seeds
        upgrade searchC state_method properties_to_ignore jd vnull flatten_keys
        modified_macros).events ∧
    (runScript none fileExists readDoc remove_large_seeds upgrade searchC
        state_method properties_to_ignore jd vnull flatten_keys
        modified_macros).error ≠ none := by
  refine ⟨rfl, ?_, ?_⟩ <;> simp [runScript]

/-- C5: if either manifest file is missing, the script reports exactly the
two warnings (the first naming the missing file or files) and the comparison
pipeline does not run: no manifest is loaded and no classification output is
produced. -/
theorem missing_manifest_skips_pipeline {V D Doc : Type} [DecidableEq V]
    (p : String) (fileExists : String → Bool) (readDoc : String → Doc)
    (remove_large_seeds : Doc → Doc × List String) (upgrade : Doc → Manifest V)
    (searchC : List String → String → List String) (state_method : String)
    (properties_to_ignore : List String) (jd : V → V → D) (vnull : V)
    (flatten_keys : List (String × D) → Except String (List (String × D)))
    (modified_macros : List String)
    (h : (fileExists (p ++ "/logs/manifest.json") &&
      fileExists (p ++ "/target/manifest.json")) = false) :
    runScript (some p) fileExists readDoc remove_large_seeds upgrade searchC
        state_method properties_to_ignore jd vnull flatten_keys modified_macros =
      { events := [Event.title, Event.info,
          Event.warnFilesNotFound
            ((if fileExists (p ++ "/logs/manifest.json") then []
              else ["Production manifest file"]) ++
             (if fileExists (p ++ "/target/manifest.json") then []
              else ["Branch manifest file"])),
          Event.warnManifestsNeeded],
        error := none } ∧
    ((if fileExists (p ++ "/logs/manifest.json") then []
      else ["Production manifest file"]) ++
     (if fileExists (p ++ "/target/manifest.json") then []
      else ["Branch manifest file"])) ≠ [] ∧
    (∀ f, Event.loadFile f ∉ (runScript (some p) fileExists readDoc
      remove_large_seeds upgrade searchC state_method properties_to_ignore jd
      vnull flatten_keys modified_macros).events) ∧
    (∀ c, Event.barChart c ∉ (runScript (some p) fileExists readDoc
      remove_large_seeds upgrade searchC state_method properties_to_ignore jd
      vnull flatten_keys modified_macros).events) := by
  have h1 : runScript (some p) fileExists readDoc remove_large_seeds upgrade
      searchC state_method properties_to_ignore jd vnull flatten_keys
      modified_macros =
      { events := [Event.title, Event.info,
          Event.warnFilesNotFound
            ((if fileExists (p ++ "/logs/manifest.json") then []
              else ["Production manifest file"]) ++
             (if fileExists (p ++ "/target/manifest.json") then []
              else ["Branch manifest file"])),
          Event.warnManifestsNeeded],
        error := none } := by
    simp [runScript, h]
  refine ⟨h1, ?_, ?_, ?_⟩
  · cases hfp : fileExists (p ++ "/logs/manifest.json") with
    | false => simp [hfp]
    | true =>
      cases hfb : fileExists (p ++ "/target/manifest.json") with
      | false => simp [hfp, hfb]
      | true =>
        rw [hfp, hfb] at h
        cases h
  · intro f
    rw [h1]
    simp
  · intro c
    rw [h1]
    simp

/-- Witness for C5: with both files missing, both names are reported and the
run ends cleanly after the two warnings. -/
theorem missing_manifest_skips_pipeline_witness :
    (runScript (some "x") (fun _ => false) (fun _ => (0 : Nat))
      (fun d => (d, [])) (fun _ => (⟨[]⟩ : Manifest Nat)) (fun _ _ => [])
      "modified" [] (fun a _ => (a : Nat)) 0 (fun _ => Except.ok []) []).events =
      [Event.title, Event.info,
        Event.warnFilesNotFound ["Production manifest file", "Branch manifest file"],
        Event.warnManifestsNeeded] := by
  have h := (missing_manifest_skips_pipeline "x" (fun _ => false)
    (fun _ => (0 : Nat)) (fun d => (d, [])) (fun _ => (⟨[]⟩ : Manifest Nat))
    (fun _ _ => []) "modified" [] (fun a _ => (a : Nat)) 0
    (fun _ => Except.ok []) [] rfl).1
  rw [h]
  rfl

theorem renderNode_no_seed_warning {V D : Type} [DecidableEq V]
    (ctx : DisplayCtx V D) (uid : String) :
    (renderNode ctx uid).events.filter isLargeSeedsWarning = [] := by
  cases hb : alookup ctx.branch.nodes uid with
  | none => simp [renderNode, hb, isLargeSeedsWarning]
  | some ln =>
    cases hp : alookup ctx.production.nodes uid with
    | none =>
      cases hrs : alookup ctx.reasons uid with
      | none => simp [renderNode, hb, hp, hrs, isLargeSeedsWarning]
      | some rs => simp [renderNode, hb, hp, hrs, isLargeSeedsWarning]
    | some rn =>
      cases hrs : alookup ctx.reasons uid with
      | none => simp [renderNode, hb, hp, hrs, isLargeSeedsWarning]
      | some rs =>
        cases hfk : ctx.flatten_keys (diffs ctx.jd ctx.vnull ln.to_dict rn.to_dict
          ctx.properties_to_ignore) with
        | ok rows =>
          by_cases hdm : ln.depends_on_macros ≠ [] ∧ ctx.modified_macros ≠ []
          · simp [renderNode, hb, hp, hrs, hfk, hdm, isLargeSeedsWarning]
          · simp [renderNode, hb, hp, hrs, hfk, hdm, isLargeSeedsWarning]
        | error e =>
          by_cases hdm : ln.depends_on_macros ≠ [] ∧ ctx.modified_macros ≠ []
          · simp [renderNode, hb, hp, hrs, hfk, hdm, isLargeSeedsWarning]
          · simp [renderNode, hb, hp, hrs, hfk, hdm, isLargeSeedsWarning]

theorem renderLoop_no_seed_warning {V D : Type} [DecidableEq V]
    (ctx : DisplayCtx V D) :
    ∀ uids : List String,
    (renderLoop ctx uids).events.filter isLargeSeedsWarning = [] := by
  intro uids
  induction uids with
  | nil => rfl
  | cons x rest ih =>
    simp only [renderLoop]
    cases he : (renderNode ctx x).error with
    | some e => simp [renderNode_no_seed_warning]
    | none => simp [List.filter_append, renderNode_no_seed_warning, ih]

theorem runPipeline_seed_warning {V D : Type} [DecidableEq V]
    (searchC : List String → String → List String) (state_method : String)
    (properties_to_ignore : List String) (jd : V → V → D) (vnull : V)
    (flatten_keys : List (String × D) → Except String (List (String × D)))
    (modified_macros : List String) (branch production : Manifest V)
    (skipped_large_seeds : List String) :
    (runPipeline searchC state_method properties_to_ignore jd vnull flatten_keys
      modified_macros branch production skipped_large_seeds).events.filter
        isLargeSeedsWarning =
      (if skipped_large_seeds = [] then []
        else [Event.warnLargeSeeds skipped_large_seeds]) := by
  by_cases hsk : skipped_large_seeds = []
  · subst hsk
    simp only [runPipeline, if_pos rfl]
    simp [List.filter_append, renderLoop_no_seed_warning, isLargeSeedsWarning]
    intro a _ ha
    rcases ha with rfl | rfl <;> rfl
  · have hlen : skipped_large_seeds.length > 0 := List.length_pos.mpr hsk
    simp only [runPipeline, if_neg hsk]
    simp [List.filter_append, renderLoop_no_seed_warning, isLargeSeedsWarning, hlen]
    intro a _ ha
    rcases ha with rfl | rfl <;> rfl

/-- C4: each manifest document is seed-elided BEFORE schema normalization (the
loaded manifest is the upgrade of the pruned document, and the elided ids are
recorded), and the union of the elided node ids of both manifests is surfaced
to the operator in exactly one aggregated warning naming those nodes, shown
exactly when the union is non-empty. -/
theorem seed_elision_before_upgrade_and_single_warning {V D Doc : Type}
    [DecidableEq V] (p : String) (fileExists : String → Bool)
    (readDoc : String → Doc) (remove_large_seeds : Doc → Doc × List String)
    (upgrade : Doc → Manifest V) (searchC : List String → String → List String)
    (state_method : String) (properties_to_ignore : List String) (jd : V → V → D)
    (vnull : V) (flatten_keys : List (String × D) → Except String (List (String × D)))
    (modified_macros : List String)
    (hfp : fileExists (p ++ "/logs/manifest.json") = true)
    (hfb : fileExists (p ++ "/target/manifest.json") = true) :
    (∀ f, load_manifest readDoc remove_large_seeds upgrade f =
      (upgrade (remove_large_seeds (readDoc f)).1,
        (remove_large_seeds (readDoc f)).2)) ∧
    ((runScript (some p) fileExists readDoc remove_large_seeds upgrade searchC
        state_method properties_to_ignore jd vnull flatten_keys
        modified_macros).events.filter isLargeSeedsWarning =
      (if ((remove_large_seeds (readDoc (p ++ "/logs/manifest.json"))).2 ++
          (remove_large_seeds (readDoc (p ++ "/target/manifest.json"))).2).dedup = []
        then []
        else [Event.warnLargeSeeds
          (((remove_large_seeds (readDoc (p ++ "/logs/manifest.json"))).2 ++
            (remove_large_seeds (readDoc (p ++ "/target/manifest.json"))).2).dedup)])) := by
  constructor
  · intro f
    rfl
  · simp only [runScript, hfp, hfb, Bool.and_self, if_pos rfl, load_manifest]
    simp [List.filter_append, isLargeSeedsWarning, runPipeline_seed_warning]

/-- Witness for C4: one elided seed id in the production manifest yields
exactly one aggregated warning naming it. -/
theorem seed_elision_single_warning_witness :
    (runScript (some "x") (fun _ => true) (fun _ => (0 : Nat))
      (fun d => (d, ["seed.x"])) (fun _ => (⟨[]⟩ : Manifest Nat))
      (fun _ _ => []) "modified" [] (fun a _ => (a : Nat)) 0
      (fun _ => Except.ok [])
      []).events.filter isLargeSeedsWarning = [Event.warnLargeSeeds ["seed.x"]] := by
  have h := (seed_elision_before_upgrade_and_single_warning "x" (fun _ => true)
    (fun _ => (0 : Nat)) (fun d => (d, ["seed.x"]))
    (fun _ => (⟨[]⟩ : Manifest Nat)) (fun _ _ => []) "modified" []
    (fun a _ => (a : Nat)) 0 (fun _ => Except.ok []) [] rfl rfl).2
  rw [h]
  rfl

/-- C6: a failure while flattening one node's diff mapping is isolated to that
node: the exception is caught and reported as a per-node error box, the JSON
diff tree and the raw right-side record are still shown, and the loop output
for the remaining selected nodes is unaffected. -/
theorem flatten_failure_isolated {V D : Type} [DecidableEq V] (ctx : DisplayCtx V D)
    (uid : String) (left_node right_node : Node V) (rs : List String) (e : String)
    (hl : alookup ctx.branch.nodes uid = some left_node)
    (hr : alookup ctx.production.nodes uid = some right_node)
    (hrs : alookup ctx.reasons uid = some rs)
    (hf : ctx.flatten_keys (diffs ctx.jd ctx.vnull left_node.to_dict
      right_node.to_dict ctx.properties_to_ignore) = Except.error e) :
    (renderNode ctx uid).error = none ∧
    Event.jsonDiffs (diffs ctx.jd ctx.vnull left_node.to_dict right_node.to_dict
      ctx.properties_to_ignore) ∈ (renderNode ctx uid).events ∧
    Event.jsonRight right_node.to_dict ∈ (renderNode ctx uid).events ∧
    Event.errorTable e ∈ (renderNode ctx uid).events ∧
    (∀ rest, renderLoop ctx (uid :: rest) =
      { events := (renderNode ctx uid).events ++ (renderLoop ctx rest).events,
        error := (renderLoop ctx rest).error }) := by
  have herr : (renderNode ctx uid).error = none := by
    simp [renderNode, hl, hr, hrs, hf]
  refine ⟨herr, ?_, ?_, ?_, ?_⟩
  · simp [renderNode, hl, hr, hrs, hf]
  · simp [renderNode, hl, hr, hrs, hf]
  · simp [renderNode, hl, hr, hrs, hf]
  · intro rest
    simp [renderLoop, herr]

/-- Witness for C6: with a failing flattener, the node still renders with an
error box and the loop does not abort. -/
theorem flatten_failure_isolated_witness :
    (renderNode ctxW "model.a").error = none ∧
    Event.errorTable "boom" ∈ (renderNode ctxW "model.a").events :=
  ⟨(flatten_failure_isolated ctxW "model.a" ⟨[("body", 1)], []⟩
      ⟨[("body", 2)], []⟩ ["modified"] "boom" rfl rfl rfl rfl).1,
    (flatten_failure_isolated ctxW "model.a" ⟨[("body", 1)], []⟩
      ⟨[("body", 2)], []⟩ ["modified"] "boom" rfl rfl rfl rfl).2.2.2.1⟩

theorem renderNode_error_none {V D : Type} [DecidableEq V] (ctx : DisplayCtx V D)
    (uid : String) (h : (alookup ctx.reasons uid).isSome = true) :
    (renderNode ctx uid).error = none := by
  cases hrs : alookup ctx.reasons uid with
  | none =>
    rw [hrs] at h
    simp at h
  | some rs =>
    cases hb : alookup ctx.branch.nodes uid with
    | none => simp [renderNode, hb]
    | some ln =>
      cases hp : alookup ctx.production.nodes uid with
      | none => simp [renderNode, hb, hp, hrs]
      | some rn => simp [renderNode, hb, hp, hrs]

theorem renderLoop_error_none {V D : Type} [DecidableEq V] (ctx : DisplayCtx V D) :
    ∀ uids : List String,
    (∀ uid ∈ uids, (alookup ctx.reasons uid).isSome = true) →
    (renderLoop ctx uids).error = none := by
  intro uids
  induction uids with
  | nil => intro _; rfl
  | cons x rest ih =>
    intro h
    have hx := renderNode_error_none ctx x (h x (List.mem_cons_self x rest))
    simp only [renderLoop, hx]
    exact ih (fun uid hm => h uid (List.mem_cons_of_mem x hm))

/-- C9: the selected state method is one of the eight categories the
classification loop already searched with the same comparator over the same
candidate set, so every selected node has an entry in the reasons-by-node
index and the per-node display lookups of that index never raise KeyError. -/
theorem selected_nodes_reasons_lookup_safe {V D : Type} [DecidableEq V]
    (pred : String → String → Bool) (included_nodes : List String)
    (state_method : String) (jd : V → V → D) (vnull : V)
    (properties_to_ignore : List String)
    (flatten_keys : List (String × D) → Except String (List (String × D)))
    (modified_macros : List String) (branch production : Manifest V)
    (hm : state_method ∈ state_options) :
    (∀ uid ∈ searchModel pred included_nodes state_method,
      (alookup (classify (searchModel pred included_nodes) state_options).2
        uid).isSome = true) ∧
    (renderLoop
      { jd := jd, vnull := vnull, properties_to_ignore := properties_to_ignore,
        flatten_keys := flatten_keys,
        reasons := (classify (searchModel pred included_nodes) state_options).2,
        modified_macros := modified_macros, branch := branch,
        production := production }
      (searchModel pred included_nodes state_method)).error = none := by
  have hsafe : ∀ uid ∈ searchModel pred included_nodes state_method,
      (alookup (classify (searchModel pred included_nodes) state_options).2
        uid).isSome = true := by
    intro uid hu
    exact alookup_isSome_of_mem_getD _ uid state_method
      (classify_mem_of_search (searchModel pred included_nodes) state_options
        ([], []) state_method hm uid hu)
  exact ⟨hsafe, renderLoop_error_none _ _ hsafe⟩

/-- Witness for C9 at a concrete comparator and candidate set. -/
theorem selected_nodes_reasons_lookup_safe_witness :
    (renderLoop
      { jd := fun a _ => (a : Nat), vnull := (0 : Nat),
        properties_to_ignore := [],
        flatten_keys := fun _ => Except.ok [],
        reasons := (classify (searchModel (fun _ _ => true) ["model.a"])
          state_options).2,
        modified_macros := [], branch := (⟨[]⟩ : Manifest Nat),
        production := ⟨[]⟩ }
      (searchModel (fun _ _ => true) ["model.a"] "new")).error = none :=
  (selected_nodes_reasons_lookup_safe (fun _ _ => true) ["model.a"] "new"
    (fun a _ => a) 0 [] (fun _ => Except.ok []) [] ⟨[]⟩ ⟨[]⟩ (by decide)).2

/-- C3 counterexample: `model.b` is present only in the reference manifest,
but the candidate set handed to every category search is the branch
manifest's key set alone (src/differ.py line 80), so `model.b` appears in
neither the classification output nor any category's search results, and is
never selected for the per-node display: it is not reported as deleted. -/
theorem reference_only_node_never_reported :
    ("model.b" ∈ referenceEx.nodes.map Prod.fst) ∧
    ("model.b" ∉ branchEx.nodes.map Prod.fst) ∧
    ("model.b" ∉ ((classify (searchModel predEx (branchEx.nodes.map Prod.fst))
      state_options).2.map Prod.fst)) ∧
    (state_options.all (fun opt => !((searchModel predEx
      (branchEx.nodes.map Prod.fst) opt).contains "model.b")) = true) := by
  decide

/-- C3 (amended): a node present only in the branch manifest is classified and
reported as `new`; every id in the classification output is a branch-manifest
id, so a node present only in the reference manifest never appears in the
classification output or the per-node display (the deleted-node display
branch is unreachable from the selection). -/
theorem branch_only_nodes_classified_new {V : Type} (pred : String → String → Bool)
    (branch reference : Manifest V)
    (hnew : ∀ uid, pred "new" uid = !(alookup reference.nodes uid).isSome) :
    (∀ uid, uid ∈ ((classify (searchModel pred (branch.nodes.map Prod.fst))
        state_options).2.map Prod.fst) → uid ∈ branch.nodes.map Prod.fst) ∧
    (∀ uid, uid ∈ branch.nodes.map Prod.fst → alookup reference.nodes uid = none →
      "new" ∈ ((alookup (classify (searchModel pred (branch.nodes.map Prod.fst))
        state_options).2 uid).getD [])) := by
  constructor
  · intro uid hid
    rw [classify] at hid
    rcases classify_key_mem (searchModel pred (branch.nodes.map Prod.fst))
      state_options ([], []) uid hid with ⟨opt, _, hk⟩ | hm
    · exact List.mem_of_mem_filter hk
    · simp at hm
  · intro uid hb hr
    have hsearch : uid ∈ searchModel pred (branch.nodes.map Prod.fst) "new" := by
      rw [searchModel, List.mem_filter]
      refine ⟨hb, ?_⟩
      rw [hnew, hr]
      rfl
    exact classify_mem_of_search (searchModel pred (branch.nodes.map Prod.fst))
      state_options ([], []) "new" (by decide) uid hsearch

/-- Witness for the amended C3: the branch-only `model.x` is classified under
`new`. -/
theorem branch_only_nodes_classified_new_witness :
    "new" ∈ ((alookup (classify (searchModel predEx
      (branchEx2.nodes.map Prod.fst)) state_options).2 "model.x").getD []) :=
  (branch_only_nodes_classified_new predEx branchEx2 referenceEx
    (fun _ => rfl)).2 "model.x" (by decide) rfl

/-- C7: the default ignored-properties selection covers each of the five
documented field groups: for every group, at least one field of that kind is
in the default selection. -/
theorem default_ignored_covers_documented_groups :
    documentedFieldGroups.all
      (fun g => g.2.any (fun f => properties_to_ignore_default.contains f)) =
      true := by
  decide

end ManifestDiffer
